import Mathlib

/-!
Verification of the depot/daggerverse module: a shallow embedding of the
Go sources (the `depot` Dagger module and its earlier variants) together
with proofs about the specified behaviour.

The repository contains four variants of the module:
* `Main`  — `src/depot/main.go` (current module: metadata file, artifacts);
* `V1`    — first document of `src/unnamed/part_000` (load/docker-host variant);
* `V2`    — second document of `src/unnamed/part_000` (bake metadata/artifacts variant);
* `V3`    — `src/unnamed/part_001` (SPDX SBOM variant).

Go `int64` arithmetic is modelled by `Int` together with explicit two's
complement wrapping (`wrap64` / `add64`).  Strings are Lean `String`s
(`List Char` based), Go `strings.HasPrefix`/`TrimPrefix` are modelled on
the character lists (`strHasPre` / `trimPre`).  The external JSON library
is modelled where its behaviour matters: for the version payload a small
JSON value type (`JValue`) mirrors `encoding/json` unmarshalling into
`struct { Version string }`; for bake-metadata decoding the per-value
decoders `json.Unmarshal` into `DepotBuild` / `Metadata` are abstract
parameters, and the repository's own partitioning loop
(`BakeMetadata.UnmarshalJSON`) is embedded directly.
-/

namespace Depot

/-! ### Go int64 arithmetic -/

/-- Two's-complement wrap of an integer into the `int64` range. -/
def wrap64 (x : Int) : Int := (x + 2 ^ 63) % 2 ^ 64 - 2 ^ 63

/-- Go `int64` addition: wrapping addition. -/
def add64 (a b : Int) : Int := wrap64 (a + b)

/-! ### OCI metadata data model (`src/depot/main.go` lines 390-435) -/

/-- `OCIDescriptor`: media type, digest, byte size of one blob. -/
structure OCIDescriptor where
  MediaType : String
  Digest : String
  Size : Int
  deriving DecidableEq, Repr

/-- `Manifest`: one platform variant of a built image. -/
structure Manifest where
  SchemaVersion : Int
  MediaType : String
  Config : OCIDescriptor
  Layers : List OCIDescriptor
  deriving DecidableEq, Repr

/-- `Metadata`: decoded result of a single build (identical in the
`Main`, `V2` and `V3` sources). -/
structure Metadata where
  ContainerImageDescriptor : OCIDescriptor
  ImageName : String
  Manifests : List Manifest
  deriving DecidableEq, Repr

/-- `Metadata.Size` from the source: start from the top-level descriptor
size, and for each manifest add its config size and every layer size
(all additions are Go `int64` additions). -/
def Metadata.Size (m : Metadata) : Int :=
  m.Manifests.foldl
    (fun size manifest =>
      manifest.Layers.foldl (fun s layer => add64 s layer.Size)
        (add64 size manifest.Config.Size))
    m.ContainerImageDescriptor.Size

/-- Mathematical (non-wrapping) size of one manifest: config size plus
the sum of its layer sizes.  Stated from the spec's words for
comparison with `Metadata.Size`. -/
def Manifest.specSize (mf : Manifest) : Int :=
  mf.Config.Size + (mf.Layers.map OCIDescriptor.Size).sum

/-- Mathematical total from the spec: descriptor size plus the sum over
all manifests of config size plus layer sizes. -/
def Metadata.specTotal (m : Metadata) : Int :=
  m.ContainerImageDescriptor.Size + (m.Manifests.map Manifest.specSize).sum

/-- All size fields of the metadata are nonnegative (true of any decoded
OCI metadata: sizes are byte counts). -/
def Metadata.sizesNonneg (m : Metadata) : Prop :=
  0 ≤ m.ContainerImageDescriptor.Size ∧
    ∀ mf ∈ m.Manifests, 0 ≤ mf.Config.Size ∧ ∀ l ∈ mf.Layers, 0 ≤ l.Size

instance (m : Metadata) : Decidable m.sizesNonneg := by
  unfold Metadata.sizesNonneg; infer_instance

/-! ### Version resolver (`latestDepotVersion`, identical in all variants)

The HTTP layer and the JSON parser are external; their outcome is the
input of the model: `none` means the request could not be completed,
`some none` means the response body was not valid JSON, `some (some v)`
means the body parsed as the JSON value `v`.  `decodeVersionStruct`
models Go `encoding/json` decoding of a JSON value into
`struct { Version string \x60json:"version"\x60 }`: object keys are
matched against the field tag with an exact match preferred and a
case-insensitive match (`strings.EqualFold`) accepted otherwise — with
the single ASCII tag `version` this is exactly case-insensitive
matching, modelled by `eqFold`.  A matching binding (last one wins)
that is a string yields that string, no matching binding or a JSON
`null` leaves the zero value `""`, any other shape is a decode
error. -/

/-- The vector contributed by one repeated `--flag value` option:
one `[flag, value]` pair per entry, in the caller-supplied order. -/
def optionPairs (flag : String) (xs : List String) : List String :=
  (xs.map (fun x => [flag, x])).flatten

namespace Main

/-- The argument-relevant fields of a `Depot.Build` call in
`src/depot/main.go`. -/
structure BuildRequest where
  dockerfile : String
  platforms : List String
  sbom : Bool
  noCache : Bool
  noSave : Bool
  lint : Bool
  buildArgs : List String
  labels : List String
  outputs : List String
  provenance : String

/-- Argument vector built by `Depot.Build` in `src/depot/main.go`
(lines 187-225), mirroring its sequence of appends. -/
def buildArgsOf (r : BuildRequest) : List String :=
  let args := ["/usr/bin/depot", "build", ".", "--metadata-file=metadata.json"]
  let args := if !r.noSave then args ++ ["--save"] else args
  let args := r.platforms.foldl (fun a p => a ++ ["--platform", p]) args
  let args := r.buildArgs.foldl (fun a b => a ++ ["--build-arg", b]) args
  let args := r.labels.foldl (fun a l => a ++ ["--label", l]) args
  let args := r.outputs.foldl (fun a o => a ++ ["--output", o]) args
  let args := if r.dockerfile ≠ "" then args ++ ["--file", r.dockerfile] else args
  let args := if r.provenance ≠ "" then args ++ ["--provenance", r.provenance] else args
  let args := if r.sbom then args ++ ["--sbom=true", "--sbom-dir=/mnt/sboms"] else args
  let args := if r.noCache then args ++ ["--no-cache"] else args
  let args := if r.lint then args ++ ["--lint"] else args
  args

/-- The argument-relevant fields of a `Depot.Bake` call in
`src/depot/main.go`. -/
structure BakeRequest where
  bakeFile : String
  sbom : Bool
  noCache : Bool
  lint : Bool
  provenance : String

/-- Argument vector built by `bake` in `src/depot/main.go`
(lines 326-340). -/
def bakeArgsOf (b : BakeRequest) : List String :=
  let args := ["/usr/bin/depot", "bake", "-f", b.bakeFile]
  let args := if b.sbom then args ++ ["--sbom=true"] else args
  let args := if b.noCache then args ++ ["--no-cache"] else args
  let args := if b.lint then args ++ ["--lint"] else args
  let args := if b.provenance ≠ "" then args ++ ["--provenance", b.provenance] else args
  args

end Main

namespace V1

/-- The argument-relevant fields of the load-variant `build`
(first document of `src/unnamed/part_000`). -/
structure BuildRequest where
  dockerfile : String
  platforms : List String
  load : Bool
  sbom : Bool
  noCache : Bool
  lint : Bool
  tags : List String
  buildArgs : List String
  labels : List String
  outputs : List String
  provenance : String

/-- Argument vector built by `build` in the load variant
(`src/unnamed/part_000` lines 160-201). -/
def buildArgsOf (r : BuildRequest) : List String :=
  let args := ["/usr/bin/depot", "build", "."]
  let args := if r.load then args ++ ["--load"] else args
  let args := if r.sbom then args ++ ["--sbom=true"] else args
  let args := if r.noCache then args ++ ["--no-cache"] else args
  let args := if r.lint then args ++ ["--lint"] else args
  let args := r.tags.foldl (fun a t => a ++ ["--tag", t]) args
  let args := r.platforms.foldl (fun a p => a ++ ["--platform", p]) args
  let args := r.buildArgs.foldl (fun a b => a ++ ["--build-arg", b]) args
  let args := r.labels.foldl (fun a l => a ++ ["--label", l]) args
  let args := r.outputs.foldl (fun a o => a ++ ["--output", o]) args
  let args := if r.dockerfile ≠ "" then args ++ ["--file", r.dockerfile] else args
  let args := if r.provenance ≠ "" then args ++ ["--provenance", r.provenance] else args
  args

end V1

namespace V2

/-- The argument-relevant fields of the metadata-variant `Bake`
(second document of `src/unnamed/part_000`). -/
structure BakeRequest where
  bakeFile : String
  sbom : Bool
  noCache : Bool
  noSave : Bool
  lint : Bool
  provenance : String

/-- Argument vector built by `Depot.Bake` in the metadata variant
(`src/unnamed/part_000` lines 571-589): note the save/no-save rule. -/
def bakeArgsOf (b : BakeRequest) : List String :=
  let args := ["/usr/bin/depot", "bake", "-f", b.bakeFile, "--metadata-file=metadata.json"]
  let args := if !b.noSave then args ++ ["--save"] else args
  let args := if b.sbom then args ++ ["--sbom=true"] else args
  let args := if b.noCache then args ++ ["--no-cache"] else args
  let args := if b.lint then args ++ ["--lint"] else args
  let args := if b.provenance ≠ "" then args ++ ["--provenance", b.provenance] else args
  args

end V2

/-! ### Execution container model (dagger API collaborator)

The dagger container is modelled by its configuration record; each
`With*` combinator is a record update.  `setKV` is last-write-wins
(replace an existing binding, else append), `getKV` is lookup. -/

/-- Replace-or-append update of an association list. -/
def setKV : List (String × String) → String → String → List (String × String)
  | [], k, v => [(k, v)]
  | kv :: rest, k, v => if kv.1 = k then (k, v) :: rest else kv :: setKV rest k v

/-- Lookup in an association list. -/
def getKV : List (String × String) → String → Option String
  | [], _ => none
  | kv :: rest, k => if kv.1 = k then some kv.2 else getKV rest k

/-- The execution container: base image, mounted directories (path to
directory id), environment variables, secret-scoped variables, working
directory, attached Unix sockets (container path to host socket path),
and the command marked for execution. -/
structure Container where
  image : String
  mounts : List (String × String)
  env : List (String × String)
  secrets : List (String × String)
  workdir : String
  sockets : List (String × String)
  execArgs : Option (List String)
  deriving DecidableEq, Repr

def emptyContainer : Container := ⟨"", [], [], [], "", [], none⟩

def Container.From (c : Container) (image : String) : Container :=
  { c with image := image }

def Container.withMountedDirectory (c : Container) (path dir : String) : Container :=
  { c with mounts := setKV c.mounts path dir }

def Container.withEnvVariable (c : Container) (k v : String) : Container :=
  { c with env := setKV c.env k v }

def Container.withSecretVariable (c : Container) (k s : String) : Container :=
  { c with secrets := setKV c.secrets k s }

def Container.withWorkdir (c : Container) (w : String) : Container :=
  { c with workdir := w }

def Container.withUnixSocket (c : Container) (path sock : String) : Container :=
  { c with sockets := setKV c.sockets path sock }

def Container.withExec (c : Container) (args : List String) : Container :=
  { c with execArgs := some args }

/-- Go `strings.HasPrefix p` applied as `strHasPre p s`. -/
def strHasPre (p s : String) : Bool := p.data.isPrefixOf s.data

/-- Go `strings.TrimPrefix` applied as `trimPre p s`. -/
def trimPre (p s : String) : String :=
  if strHasPre p s then ⟨s.data.drop p.data.length⟩ else s

namespace V1

/-- `DefaultDockerHost` from the load variant. -/
def DefaultDockerHost : String := "unix:///var/run/docker.sock"

/-- Container construction of the load-variant `build`
(`src/unnamed/part_000` lines 211-234), as a function of the resolved
CLI version, project, directory id, token id, docker host, and the
argument vector: base image, mount, env/secret variables, workdir, then
the docker-host switch, then the exec marking. -/
def buildContainer (depotVersion project directory token dockerHost : String)
    (args : List String) : Container :=
  let depotImage := "ghcr.io/depot/cli:" ++ depotVersion
  let container :=
    ((((emptyContainer.From depotImage).withMountedDirectory "/mnt" directory).withEnvVariable
        "DEPOT_PROJECT_ID" project).withSecretVariable "DEPOT_TOKEN" token).withWorkdir "/mnt"
  let dockerHost := if dockerHost = "" then DefaultDockerHost else dockerHost
  let container :=
    if strHasPre "unix://" dockerHost then
      (container.withUnixSocket "/var/run/docker.sock"
          (trimPre "unix://" dockerHost)).withEnvVariable
        "DOCKER_HOST" "unix:///var/run/docker.sock"
    else if strHasPre "tcp://" dockerHost then
      container.withEnvVariable "DOCKER_HOST" dockerHost
    else container
  container.withExec args

/-- Container construction of the load-variant `bake`
(`src/unnamed/part_000` lines 277-300): same construction with the bake
argument vector. -/
def bakeContainer (depotVersion project directory token dockerHost : String)
    (args : List String) : Container :=
  let depotImage := "ghcr.io/depot/cli:" ++ depotVersion
  let container :=
    ((((emptyContainer.From depotImage).withMountedDirectory "/mnt" directory).withEnvVariable
        "DEPOT_PROJECT_ID" project).withSecretVariable "DEPOT_TOKEN" token).withWorkdir "/mnt"
  let dockerHost := if dockerHost = "" then DefaultDockerHost else dockerHost
  let container :=
    if strHasPre "unix://" dockerHost then
      (container.withUnixSocket "/var/run/docker.sock"
          (trimPre "unix://" dockerHost)).withEnvVariable
        "DOCKER_HOST" "unix:///var/run/docker.sock"
    else if strHasPre "tcp://" dockerHost then
      container.withEnvVariable "DOCKER_HOST" dockerHost
    else container
  container.withExec args

end V1

/-! ### Bake artifacts and target lookup (V2) -/

namespace V2

/-- `BuildArtifact` of the metadata variant (second document of
`src/unnamed/part_000`). -/
structure BuildArtifact where
  Token : String
  Project : String
  Target : String
  SBOMDir : Option String
  ImageName : String
  Size : Int
  deriving DecidableEq, Repr

/-- `Artifacts`: the bake result set. -/
structure Artifacts where
  Artifacts : List BuildArtifact
  deriving DecidableEq, Repr

end V2

/-- `Artifacts.Get` of the metadata variant (`src/unnamed/part_000`
lines 643-656): return the first artifact whose target matches, else an
error message enumerating every artifact's target, joined with `", "`. -/
def V2.Artifacts.Get (a : V2.Artifacts) (target : String) : Except String V2.BuildArtifact :=
  match a.Artifacts.find? (fun artifact => artifact.Target == target) with
  | some artifact => Except.ok artifact
  | none =>
    Except.error ("no such artifact target " ++ target ++ ". valid targets: " ++
      String.intercalate ", " (a.Artifacts.map (fun artifact => artifact.Target)))

/-! ### SBOM retrieval -/

namespace Main

/-- A directory handle: its listed entries. -/
structure Directory where
  entries : List String
  deriving DecidableEq, Repr

/-- A file handle inside a directory. -/
structure File where
  dir : Directory
  path : String
  deriving DecidableEq, Repr

/-- `Directory.File`: the handle of the file at `path`. -/
def Directory.File (d : Directory) (path : String) : File := ⟨d, path⟩

/-- `BuildArtifact` of `src/depot/main.go`. -/
structure BuildArtifact where
  Token : String
  Project : String
  SBOMDir : Option Directory
  ImageName : String
  Size : Int
  deriving DecidableEq, Repr

/-- `BuildArtifact.SBOM` (`src/depot/main.go` lines 114-134): error when
the SBOM directory is absent, list the entries into file handles, error
when there are none, else return the first. -/
def BuildArtifact.SBOM (b : BuildArtifact) : Except String File :=
  match b.SBOMDir with
  | none => Except.error "sbom not generated; use --sbom"
  | some dir =>
    let sboms := dir.entries.map (fun path => dir.File path)
    match sboms with
    | [] => Except.error "no sboms found"
    | s :: _ => Except.ok s

end Main

namespace V3

/-- A directory handle of the SPDX variant: listed entries together
with the contents of each file. -/
structure Directory where
  entries : List String
  contents : String → String

/-- `BuildArtifact` of `src/unnamed/part_001`. -/
structure BuildArtifact where
  Token : String
  Project : String
  Metadata : Depot.Metadata
  SBOMDir : Option Directory

/-- `BuildArtifact.SBOMs` (`src/unnamed/part_001` lines 78-104) over an
abstract SPDX reader: error when the SBOM directory is absent; the loop
reads and parses only the first entry (it `break`s after one), erroring
if the SPDX read fails and otherwise collecting the raw contents; after
the loop the code indexes `sboms[0]`, which for an entry-less directory
is an index-out-of-range panic — modelled as `none`. -/
def BuildArtifact.SBOMs {α : Type} (spdxRead : String → Option α) (b : BuildArtifact) :
    Option (Except String String) :=
  match b.SBOMDir with
  | none => some (Except.error "sbom not generated; use --sbom")
  | some dir =>
    match dir.entries with
    | [] => none
    | path :: _ =>
      let buf := dir.contents path
      match spdxRead buf with
      | none => some (Except.error "spdx read error")
      | some _ => some (Except.ok buf)

end V3

/-! ### Bake metadata decoding (V2 `BakeMetadata.UnmarshalJSON`)

`json.Unmarshal(d, &obj)` first decodes the raw JSON object into a map
from key to raw value; the model takes that decoded object as an
association list `obj : List (String × α)` (`α` abstracts
`json.RawMessage`; the list order covers both the source key order and
Go's arbitrary map iteration order, and a well-formed JSON object has
distinct keys).  The per-value decoders `json.Unmarshal` into
`DepotBuild` and `Metadata` are abstracted as `ddb` and `dmd`. -/

namespace V2

/-- `DepotBuild` of the metadata variant. -/
structure DepotBuild where
  BuildID : String
  ProjectID : String
  Targets : List String
  deriving DecidableEq, Repr

/-- The Go zero value of `DepotBuild`. -/
def DepotBuild.zero : DepotBuild := ⟨"", "", []⟩

/-- `BakeMetadata`: build identifiers plus the target mapping, the
mapping represented as an association list in insertion order. -/
structure BakeMetadata where
  DepotBuild : DepotBuild
  Targets : List (String × Depot.Metadata)
  deriving DecidableEq, Repr

end V2

/-- The loop of `BakeMetadata.UnmarshalJSON` (`src/unnamed/part_000`
lines 722-746): for each key/value pair, the reserved key `depot.build`
is decoded into the build identifiers and every other key is decoded as
a `Metadata` and inserted into the target mapping; a failing decode
aborts the whole unmarshal. -/
def unmarshalLoop {α : Type} (ddb : α → Option V2.DepotBuild)
    (dmd : α → Option Depot.Metadata) :
    List (String × α) → V2.DepotBuild → List (String × Depot.Metadata) →
      Option (V2.DepotBuild × List (String × Depot.Metadata))
  | [], db, ts => some (db, ts)
  | (k, v) :: rest, db, ts =>
    if k = "depot.build" then
      match ddb v with
      | none => none
      | some d => unmarshalLoop ddb dmd rest d ts
    else
      match dmd v with
      | none => none
      | some md => unmarshalLoop ddb dmd rest db (ts ++ [(k, md)])

/-- `BakeMetadata.UnmarshalJSON` over the decoded raw object: run the
loop from the zero `DepotBuild` and the freshly made empty target map. -/
def V2.BakeMetadata.unmarshalJSON {α : Type} (ddb : α → Option V2.DepotBuild)
    (dmd : α → Option Depot.Metadata) (obj : List (String × α)) :
    Option V2.BakeMetadata :=
  (unmarshalLoop ddb dmd obj V2.DepotBuild.zero []).map (fun r => ⟨r.1, r.2⟩)

/-- The target entries produced from `obj`: every non-reserved key with
its decoded metadata, in order. -/
def processedTargets {α : Type} (dmd : α → Option Depot.Metadata)
    (obj : List (String × α)) : List (String × Depot.Metadata) :=
  obj.filterMap (fun kv =>
    if kv.1 = "depot.build" then none else (dmd kv.2).map (fun md => (kv.1, md)))

/-- The final build identifiers: the last successful reserved-key
decode, starting from `db`. -/
def depotBuildResult {α : Type} (ddb : α → Option V2.DepotBuild)
    (obj : List (String × α)) (db : V2.DepotBuild) : V2.DepotBuild :=
  obj.foldl (fun acc kv => if kv.1 = "depot.build" then (ddb kv.2).getD acc else acc) db

/-- Association-list lookup for reading the target mapping. -/
def lookupTarget (ts : List (String × Depot.Metadata)) (k : String) :
    Option Depot.Metadata :=
  (ts.find? (fun kv => kv.1 == k)).map (fun kv => kv.2)

/-! ### Theorems -/

theorem wrap64_eq_self {x : Int} (h1 : -(2 ^ 63) ≤ x) (h2 : x < 2 ^ 63) :
    wrap64 x = x := by
  have e63 : (2 : Int) ^ 63 = 9223372036854775808 := by norm_num
  have e64 : (2 : Int) ^ 64 = 18446744073709551616 := by norm_num
  unfold wrap64
  rw [e63, e64] at *
  rw [Int.emod_eq_of_lt (by omega) (by omega)]
  omega

theorem add64_eq_of_bounds {a b : Int} (h1 : -(2 ^ 63) ≤ a + b) (h2 : a + b < 2 ^ 63) :
    add64 a b = a + b :=
  wrap64_eq_self h1 h2

theorem layers_foldl_eq (ls : List OCIDescriptor) :
    ∀ s : Int, 0 ≤ s → (∀ l ∈ ls, 0 ≤ l.Size) →
      s + (ls.map OCIDescriptor.Size).sum < 2 ^ 63 →
      ls.foldl (fun a l => add64 a l.Size) s = s + (ls.map OCIDescriptor.Size).sum := by
  induction ls with
  | nil => intro s _ _ _; simp
  | cons l ls ih =>
    intro s hs hnn hlt
    have hl : 0 ≤ l.Size := hnn l (List.mem_cons_self _ _)
    have hsum : 0 ≤ (ls.map OCIDescriptor.Size).sum := by
      apply List.sum_nonneg
      intro x hx
      obtain ⟨d, hd, rfl⟩ := List.mem_map.mp hx
      exact (hnn d (List.mem_cons_of_mem _ hd))
    simp only [List.map_cons, List.sum_cons] at hlt ⊢
    simp only [List.foldl_cons]
    rw [add64_eq_of_bounds (by omega) (by omega)]
    rw [ih (s + l.Size) (by omega)
      (fun x hx => hnn x (List.mem_cons_of_mem _ hx)) (by omega)]
    ring

theorem manifests_foldl_eq (mfs : List Manifest) :
    ∀ s : Int, 0 ≤ s →
      (∀ mf ∈ mfs, 0 ≤ mf.Config.Size ∧ ∀ l ∈ mf.Layers, 0 ≤ l.Size) →
      s + (mfs.map Manifest.specSize).sum < 2 ^ 63 →
      mfs.foldl
        (fun size manifest =>
          manifest.Layers.foldl (fun a l => add64 a l.Size)
            (add64 size manifest.Config.Size)) s
        = s + (mfs.map Manifest.specSize).sum := by
  induction mfs with
  | nil => intro s _ _ _; simp
  | cons mf mfs ih =>
    intro s hs hnn hlt
    have hc : 0 ≤ mf.Config.Size := (hnn mf (List.mem_cons_self _ _)).1
    have hls : ∀ l ∈ mf.Layers, 0 ≤ l.Size := (hnn mf (List.mem_cons_self _ _)).2
    have hlsum : 0 ≤ (mf.Layers.map OCIDescriptor.Size).sum := by
      apply List.sum_nonneg
      intro x hx
      obtain ⟨d, hd, rfl⟩ := List.mem_map.mp hx
      exact hls d hd
    have hrest : 0 ≤ (mfs.map Manifest.specSize).sum := by
      apply List.sum_nonneg
      intro x hx
      obtain ⟨d, hd, rfl⟩ := List.mem_map.mp hx
      have h1 := (hnn d (List.mem_cons_of_mem _ hd)).1
      have h2 : 0 ≤ (d.Layers.map OCIDescriptor.Size).sum := by
        apply List.sum_nonneg
        intro y hy
        obtain ⟨e, he, rfl⟩ := List.mem_map.mp hy
        exact (hnn d (List.mem_cons_of_mem _ hd)).2 e he
      unfold Manifest.specSize
      omega
    simp only [List.map_cons, List.sum_cons] at hlt ⊢
    have hspec : Manifest.specSize mf = mf.Config.Size + (mf.Layers.map OCIDescriptor.Size).sum := rfl
    rw [hspec] at hlt ⊢
    simp only [List.foldl_cons]
    rw [add64_eq_of_bounds (by omega) (by omega)]
    rw [layers_foldl_eq mf.Layers (s + mf.Config.Size) (by omega) hls (by omega)]
    rw [ih (s + mf.Config.Size + (mf.Layers.map OCIDescriptor.Size).sum)
      (by omega) (fun x hx => hnn x (List.mem_cons_of_mem _ hx)) (by omega)]
    ring

/-- Claim C1: for every decoded build metadata value whose size fields
are nonnegative and whose total fits in `int64` (no overflow), the
derived size equals the top-level descriptor's size plus, for each
manifest, its config size plus the sum of its layer sizes; and with zero
manifests the size equals the descriptor size alone. -/
theorem claim_C1 (m : Metadata) (h1 : m.sizesNonneg) (h2 : m.specTotal < 2 ^ 63) :
    m.Size = m.specTotal ∧ (m.Manifests = [] → m.Size = m.ContainerImageDescriptor.Size) := by
  have hmain : m.Size = m.specTotal := by
    unfold Metadata.Size Metadata.specTotal
    unfold Metadata.specTotal at h2
    exact manifests_foldl_eq m.Manifests m.ContainerImageDescriptor.Size h1.1 h1.2 h2
  refine ⟨hmain, fun hnil => ?_⟩
  rw [hmain]
  unfold Metadata.specTotal
  rw [hnil]
  simp

/-- Witness for C1 at a concrete metadata value: descriptor size 7, one
manifest with config size 3 and layers of sizes 5 and 6, total 21. -/
theorem claim_C1_witness :
    (Metadata.sizesNonneg
        ⟨⟨"mt", "dg", 7⟩, "img", [⟨2, "mf", ⟨"cfg", "d0", 3⟩, [⟨"l", "d1", 5⟩, ⟨"l", "d2", 6⟩]⟩]⟩) ∧
      (Metadata.specTotal
        ⟨⟨"mt", "dg", 7⟩, "img", [⟨2, "mf", ⟨"cfg", "d0", 3⟩, [⟨"l", "d1", 5⟩, ⟨"l", "d2", 6⟩]⟩]⟩ < 2 ^ 63) ∧
      (Metadata.Size
          ⟨⟨"mt", "dg", 7⟩, "img", [⟨2, "mf", ⟨"cfg", "d0", 3⟩, [⟨"l", "d1", 5⟩, ⟨"l", "d2", 6⟩]⟩]⟩ =
        Metadata.specTotal
          ⟨⟨"mt", "dg", 7⟩, "img", [⟨2, "mf", ⟨"cfg", "d0", 3⟩, [⟨"l", "d1", 5⟩, ⟨"l", "d2", 6⟩]⟩]⟩ ∧
        ((Metadata.Manifests
            ⟨⟨"mt", "dg", 7⟩, "img", [⟨2, "mf", ⟨"cfg", "d0", 3⟩, [⟨"l", "d1", 5⟩, ⟨"l", "d2", 6⟩]⟩]⟩ = []) →
          Metadata.Size
              ⟨⟨"mt", "dg", 7⟩, "img", [⟨2, "mf", ⟨"cfg", "d0", 3⟩, [⟨"l", "d1", 5⟩, ⟨"l", "d2", 6⟩]⟩]⟩ =
            OCIDescriptor.Size ⟨"mt", "dg", 7⟩)) :=
  ⟨by decide, by decide, claim_C1 _ (by decide) (by decide)⟩

theorem foldl_append_pairs (flag : String) (xs : List String) (acc : List String) :
    xs.foldl (fun a x => a ++ [flag, x]) acc = acc ++ optionPairs flag xs := by
  induction xs generalizing acc with
  | nil => simp [optionPairs]
  | cons x xs ih =>
    simp only [List.foldl_cons, ih, optionPairs, List.map_cons, List.flatten_cons]
    simp

theorem not_mem_optionPairs {y flag : String} {xs : List String}
    (h1 : y ≠ flag) (h2 : y ∉ xs) : y ∉ optionPairs flag xs := by
  intro hmem
  simp only [optionPairs, List.mem_flatten, List.mem_map] at hmem
  obtain ⟨l, ⟨x, hx, rfl⟩, hyl⟩ := hmem
  simp only [List.mem_cons, List.not_mem_nil, or_false] at hyl
  rcases hyl with h | h
  · exact h1 h
  · exact h2 (h ▸ hx)

theorem append_ite_not (b : Bool) (X tail : List String) :
    (if !b then X ++ tail else X) = X ++ (if b then [] else tail) := by
  cases b <;> simp

theorem append_ite_bool (b : Bool) (X tail : List String) :
    (if b then X ++ tail else X) = X ++ (if b then tail else []) := by
  cases b <;> simp

theorem append_ite_strne (s : String) (X tail : List String) :
    (if s ≠ "" then X ++ tail else X) = X ++ (if s = "" then [] else tail) := by
  by_cases h : s = "" <;> simp [h]

theorem ite_not_flip (b : Bool) (X Y : List String) :
    (if !b then X else Y) = if b then Y else X := by
  cases b <;> simp

/-- `Depot.Build` of `src/depot/main.go` decomposed by option category:
base and the conditional save flag, then the repeated list options in
declaration order, then the file option, then provenance, then the
sbom / no-cache / lint flags last. -/
theorem main_buildArgs_decomp (r : Main.BuildRequest) :
    Main.buildArgsOf r =
      ["/usr/bin/depot", "build", ".", "--metadata-file=metadata.json"] ++
        (if r.noSave then [] else ["--save"]) ++
        optionPairs "--platform" r.platforms ++
        optionPairs "--build-arg" r.buildArgs ++
        optionPairs "--label" r.labels ++
        optionPairs "--output" r.outputs ++
        (if r.dockerfile = "" then [] else ["--file", r.dockerfile]) ++
        (if r.provenance = "" then [] else ["--provenance", r.provenance]) ++
        (if r.sbom then ["--sbom=true", "--sbom-dir=/mnt/sboms"] else []) ++
        (if r.noCache then ["--no-cache"] else []) ++
        (if r.lint then ["--lint"] else []) := by
  simp only [Main.buildArgsOf, foldl_append_pairs, append_ite_not, append_ite_bool,
    append_ite_strne, ite_not_flip]
  try simp only [List.append_assoc]

/-- The load-variant `build` decomposed by option category: boolean
flags first, then the repeated list options (tags, platforms,
build-args, labels, outputs) in declaration order, then the file
option, with provenance last. -/
theorem v1_buildArgs_decomp (r : V1.BuildRequest) :
    V1.buildArgsOf r =
      ["/usr/bin/depot", "build", "."] ++
        (if r.load then ["--load"] else []) ++
        (if r.sbom then ["--sbom=true"] else []) ++
        (if r.noCache then ["--no-cache"] else []) ++
        (if r.lint then ["--lint"] else []) ++
        optionPairs "--tag" r.tags ++
        optionPairs "--platform" r.platforms ++
        optionPairs "--build-arg" r.buildArgs ++
        optionPairs "--label" r.labels ++
        optionPairs "--output" r.outputs ++
        (if r.dockerfile = "" then [] else ["--file", r.dockerfile]) ++
        (if r.provenance = "" then [] else ["--provenance", r.provenance]) := by
  simp only [V1.buildArgsOf, foldl_append_pairs, append_ite_not, append_ite_bool,
    append_ite_strne, ite_not_flip]
  try simp only [List.append_assoc]

/-- The metadata-variant `Bake` decomposed: base, conditional save
flag, boolean flags, then provenance. -/
theorem v2_bakeArgs_decomp (b : V2.BakeRequest) :
    V2.bakeArgsOf b =
      ["/usr/bin/depot", "bake", "-f", b.bakeFile, "--metadata-file=metadata.json"] ++
        (if b.noSave then [] else ["--save"]) ++
        (if b.sbom then ["--sbom=true"] else []) ++
        (if b.noCache then ["--no-cache"] else []) ++
        (if b.lint then ["--lint"] else []) ++
        (if b.provenance = "" then [] else ["--provenance", b.provenance]) := by
  simp only [V2.bakeArgsOf, foldl_append_pairs, append_ite_not, append_ite_bool,
    append_ite_strne, ite_not_flip]
  try simp only [List.append_assoc]

/-- The main-module `bake` decomposed: base, boolean flags, provenance
— no save flag anywhere. -/
theorem main_bakeArgs_decomp (b : Main.BakeRequest) :
    Main.bakeArgsOf b =
      ["/usr/bin/depot", "bake", "-f", b.bakeFile] ++
        (if b.sbom then ["--sbom=true"] else []) ++
        (if b.noCache then ["--no-cache"] else []) ++
        (if b.lint then ["--lint"] else []) ++
        (if b.provenance = "" then [] else ["--provenance", b.provenance]) := by
  simp only [Main.bakeArgsOf, foldl_append_pairs, append_ite_not, append_ite_bool,
    append_ite_strne, ite_not_flip]
  try simp only [List.append_assoc]

/-- Counterexample for C4: for the request with `lint = true` and
provenance `"mode"`, the main module's `Depot.Build` puts the `--lint`
flag after the `--provenance` pair — so the vector is not ordered
"flags first … provenance last" as claimed: the last element is
`"--lint"`, not the provenance value. -/
theorem claim_C4_cx :
    Main.buildArgsOf ⟨"", [], false, false, false, true, [], [], [], "mode"⟩ =
      ["/usr/bin/depot", "build", ".", "--metadata-file=metadata.json", "--save",
        "--provenance", "mode", "--lint"] ∧
      (Main.buildArgsOf ⟨"", [], false, false, false, true, [], [], [], "mode"⟩).getLast? ≠
        some "mode" := by
  constructor
  · decide
  · decide

/-- Claim C4 (amended): the main module's `Depot.Build` vector is
ordered base / conditional save flag, then the repeated list options
(platforms, build-args, labels, outputs) in declaration order, then the
file option, then provenance, then the sbom / no-cache / lint boolean
flags last; the load variant's `build` instead puts the boolean flags
first, then the repeated list options (tags, platforms, build-args,
labels, outputs), then the file option, with provenance last. -/
theorem claim_C4 (r : Main.BuildRequest) (r1 : V1.BuildRequest) :
    Main.buildArgsOf r =
        ["/usr/bin/depot", "build", ".", "--metadata-file=metadata.json"] ++
          (if r.noSave then [] else ["--save"]) ++
          optionPairs "--platform" r.platforms ++
          optionPairs "--build-arg" r.buildArgs ++
          optionPairs "--label" r.labels ++
          optionPairs "--output" r.outputs ++
          (if r.dockerfile = "" then [] else ["--file", r.dockerfile]) ++
          (if r.provenance = "" then [] else ["--provenance", r.provenance]) ++
          (if r.sbom then ["--sbom=true", "--sbom-dir=/mnt/sboms"] else []) ++
          (if r.noCache then ["--no-cache"] else []) ++
          (if r.lint then ["--lint"] else []) ∧
      V1.buildArgsOf r1 =
        ["/usr/bin/depot", "build", "."] ++
          (if r1.load then ["--load"] else []) ++
          (if r1.sbom then ["--sbom=true"] else []) ++
          (if r1.noCache then ["--no-cache"] else []) ++
          (if r1.lint then ["--lint"] else []) ++
          optionPairs "--tag" r1.tags ++
          optionPairs "--platform" r1.platforms ++
          optionPairs "--build-arg" r1.buildArgs ++
          optionPairs "--label" r1.labels ++
          optionPairs "--output" r1.outputs ++
          (if r1.dockerfile = "" then [] else ["--file", r1.dockerfile]) ++
          (if r1.provenance = "" then [] else ["--provenance", r1.provenance]) :=
  ⟨main_buildArgs_decomp r, v1_buildArgs_decomp r1⟩

/-- Counterexample for C5: the metadata-variant `Depot.Bake` includes
`--save` by default as well, so the save/no-save rule does not apply to
build invocations only. -/
theorem claim_C5_cx :
    "--save" ∈ V2.bakeArgsOf ⟨"docker-bake.hcl", false, false, false, false, ""⟩ := by
  decide

/-- Claim C5 (amended): provided no user-supplied value is the literal
string `"--save"`, the `--save` flag is present in the main module's
build vector exactly when no-save is unset, the same rule applies to
the metadata-variant bake vector, and the main module's bake vector
never contains `--save`. -/
theorem claim_C5 (r : Main.BuildRequest) (b : V2.BakeRequest) (mb : Main.BakeRequest)
    (hp : "--save" ∉ r.platforms) (hba : "--save" ∉ r.buildArgs)
    (hl : "--save" ∉ r.labels) (ho : "--save" ∉ r.outputs)
    (hd : r.dockerfile ≠ "--save") (hv : r.provenance ≠ "--save")
    (hbf : b.bakeFile ≠ "--save") (hbv : b.provenance ≠ "--save")
    (hmf : mb.bakeFile ≠ "--save") (hmv : mb.provenance ≠ "--save") :
    ("--save" ∈ Main.buildArgsOf r ↔ r.noSave = false) ∧
      ("--save" ∈ V2.bakeArgsOf b ↔ b.noSave = false) ∧
      "--save" ∉ Main.bakeArgsOf mb := by
  have hsave1 : "--save" ∈ (if r.noSave then ([] : List String) else ["--save"]) ↔
      r.noSave = false := by cases r.noSave <;> simp
  have hsave2 : "--save" ∈ (if b.noSave then ([] : List String) else ["--save"]) ↔
      b.noSave = false := by cases b.noSave <;> simp
  have hop1 : "--save" ∉ optionPairs "--platform" r.platforms :=
    not_mem_optionPairs (by decide) hp
  have hop2 : "--save" ∉ optionPairs "--build-arg" r.buildArgs :=
    not_mem_optionPairs (by decide) hba
  have hop3 : "--save" ∉ optionPairs "--label" r.labels :=
    not_mem_optionPairs (by decide) hl
  have hop4 : "--save" ∉ optionPairs "--output" r.outputs :=
    not_mem_optionPairs (by decide) ho
  have hfile : "--save" ∉ (if r.dockerfile = "" then ([] : List String)
      else ["--file", r.dockerfile]) := by
    by_cases hdf : r.dockerfile = ""
    · simp [hdf]
    · simp [hdf]
      exact fun he => hd he.symm
  have hprov : "--save" ∉ (if r.provenance = "" then ([] : List String)
      else ["--provenance", r.provenance]) := by
    by_cases hpv : r.provenance = ""
    · simp [hpv]
    · simp [hpv]
      exact fun he => hv he.symm
  have hprov2 : "--save" ∉ (if b.provenance = "" then ([] : List String)
      else ["--provenance", b.provenance]) := by
    by_cases hpv : b.provenance = ""
    · simp [hpv]
    · simp [hpv]
      exact fun he => hbv he.symm
  have hprov3 : "--save" ∉ (if mb.provenance = "" then ([] : List String)
      else ["--provenance", mb.provenance]) := by
    by_cases hpv : mb.provenance = ""
    · simp [hpv]
    · simp [hpv]
      exact fun he => hmv he.symm
  have hsbom1 : "--save" ∉ (if r.sbom then ["--sbom=true", "--sbom-dir=/mnt/sboms"]
      else ([] : List String)) := by cases r.sbom <;> decide
  have hnc1 : "--save" ∉ (if r.noCache then ["--no-cache"] else ([] : List String)) := by
    cases r.noCache <;> decide
  have hlint1 : "--save" ∉ (if r.lint then ["--lint"] else ([] : List String)) := by
    cases r.lint <;> decide
  have hsbom2 : "--save" ∉ (if b.sbom then ["--sbom=true"] else ([] : List String)) := by
    cases b.sbom <;> decide
  have hnc2 : "--save" ∉ (if b.noCache then ["--no-cache"] else ([] : List String)) := by
    cases b.noCache <;> decide
  have hlint2 : "--save" ∉ (if b.lint then ["--lint"] else ([] : List String)) := by
    cases b.lint <;> decide
  have hsbom3 : "--save" ∉ (if mb.sbom then ["--sbom=true"] else ([] : List String)) := by
    cases mb.sbom <;> decide
  have hnc3 : "--save" ∉ (if mb.noCache then ["--no-cache"] else ([] : List String)) := by
    cases mb.noCache <;> decide
  have hlint3 : "--save" ∉ (if mb.lint then ["--lint"] else ([] : List String)) := by
    cases mb.lint <;> decide
  refine ⟨?_, ?_, ?_⟩
  · rw [main_buildArgs_decomp r]
    simp [List.mem_append, hsave1, hop1, hop2, hop3, hop4, hfile, hprov, hsbom1, hnc1, hlint1]
  · rw [v2_bakeArgs_decomp b]
    have hbfne : ¬("--save" = b.bakeFile) := fun he => hbf he.symm
    simp [List.mem_append, hbfne, hsave2, hsbom2, hnc2, hlint2, hprov2]
  · rw [main_bakeArgs_decomp mb]
    have hmfne : ¬("--save" = mb.bakeFile) := fun he => hmf he.symm
    simp [List.mem_append, hmfne, hsbom3, hnc3, hlint3, hprov3]

/-- Witness for C5 at concrete requests with empty user-supplied values. -/
theorem claim_C5_witness :
    ("--save" ∉ ([] : List String)) ∧ (("" : String) ≠ "--save") ∧
      (("--save" ∈ Main.buildArgsOf ⟨"", [], false, false, false, false, [], [], [], ""⟩ ↔
          false = false) ∧
        ("--save" ∈ V2.bakeArgsOf ⟨"", false, false, false, false, ""⟩ ↔ false = false) ∧
        "--save" ∉ Main.bakeArgsOf ⟨"", false, false, false, ""⟩) :=
  ⟨by decide, by decide,
    claim_C5 ⟨"", [], false, false, false, false, [], [], [], ""⟩
      ⟨"", false, false, false, false, ""⟩ ⟨"", false, false, false, ""⟩
      (by decide) (by decide) (by decide) (by decide) (by decide)
      (by decide) (by decide) (by decide) (by decide) (by decide)⟩

/-- Claim C6: a main-module build request with empty dockerfile path and
empty provenance (and no user-supplied list value equal to the literal
option names) produces an argument vector containing neither `--file`
nor `--provenance`. -/
theorem claim_C6 (r : Main.BuildRequest)
    (hd : r.dockerfile = "") (hpv : r.provenance = "")
    (h1 : "--file" ∉ r.platforms) (h2 : "--file" ∉ r.buildArgs)
    (h3 : "--file" ∉ r.labels) (h4 : "--file" ∉ r.outputs)
    (h5 : "--provenance" ∉ r.platforms) (h6 : "--provenance" ∉ r.buildArgs)
    (h7 : "--provenance" ∉ r.labels) (h8 : "--provenance" ∉ r.outputs) :
    "--file" ∉ Main.buildArgsOf r ∧ "--provenance" ∉ Main.buildArgsOf r := by
  have hf1 : "--file" ∉ optionPairs "--platform" r.platforms :=
    not_mem_optionPairs (by decide) h1
  have hf2 : "--file" ∉ optionPairs "--build-arg" r.buildArgs :=
    not_mem_optionPairs (by decide) h2
  have hf3 : "--file" ∉ optionPairs "--label" r.labels :=
    not_mem_optionPairs (by decide) h3
  have hf4 : "--file" ∉ optionPairs "--output" r.outputs :=
    not_mem_optionPairs (by decide) h4
  have hp1 : "--provenance" ∉ optionPairs "--platform" r.platforms :=
    not_mem_optionPairs (by decide) h5
  have hp2 : "--provenance" ∉ optionPairs "--build-arg" r.buildArgs :=
    not_mem_optionPairs (by decide) h6
  have hp3 : "--provenance" ∉ optionPairs "--label" r.labels :=
    not_mem_optionPairs (by decide) h7
  have hp4 : "--provenance" ∉ optionPairs "--output" r.outputs :=
    not_mem_optionPairs (by decide) h8
  have hsaveF : "--file" ∉ (if r.noSave then ([] : List String) else ["--save"]) := by
    cases r.noSave <;> decide
  have hsbomF : "--file" ∉ (if r.sbom then ["--sbom=true", "--sbom-dir=/mnt/sboms"]
      else ([] : List String)) := by cases r.sbom <;> decide
  have hncF : "--file" ∉ (if r.noCache then ["--no-cache"] else ([] : List String)) := by
    cases r.noCache <;> decide
  have hlintF : "--file" ∉ (if r.lint then ["--lint"] else ([] : List String)) := by
    cases r.lint <;> decide
  have hsaveP : "--provenance" ∉ (if r.noSave then ([] : List String) else ["--save"]) := by
    cases r.noSave <;> decide
  have hsbomP : "--provenance" ∉ (if r.sbom then ["--sbom=true", "--sbom-dir=/mnt/sboms"]
      else ([] : List String)) := by cases r.sbom <;> decide
  have hncP : "--provenance" ∉ (if r.noCache then ["--no-cache"] else ([] : List String)) := by
    cases r.noCache <;> decide
  have hlintP : "--provenance" ∉ (if r.lint then ["--lint"] else ([] : List String)) := by
    cases r.lint <;> decide
  refine ⟨?_, ?_⟩ <;> rw [main_buildArgs_decomp r, hd, hpv]
  · simp [List.mem_append, hsaveF, hf1, hf2, hf3, hf4, hsbomF, hncF, hlintF]
  · simp [List.mem_append, hsaveP, hp1, hp2, hp3, hp4, hsbomP, hncP, hlintP]

/-- Witness for C6 at a concrete request with a platform and a label. -/
theorem claim_C6_witness :
    (Main.BuildRequest.dockerfile ⟨"", ["linux/amd64"], true, false, false, false, [],
        ["team=infra"], [], ""⟩ = "") ∧
      ("--file" ∉ (["linux/amd64"] : List String)) ∧
      ("--provenance" ∉ (["team=infra"] : List String)) ∧
      ("--file" ∉ Main.buildArgsOf ⟨"", ["linux/amd64"], true, false, false, false, [],
          ["team=infra"], [], ""⟩ ∧
        "--provenance" ∉ Main.buildArgsOf ⟨"", ["linux/amd64"], true, false, false, false, [],
          ["team=infra"], [], ""⟩) :=
  ⟨rfl, by decide, by decide,
    claim_C6 ⟨"", ["linux/amd64"], true, false, false, false, [], ["team=infra"], [], ""⟩
      rfl rfl (by decide) (by decide) (by decide) (by decide)
      (by decide) (by decide) (by decide) (by decide)⟩

/-- A string with the `tcp://` scheme does not have the `unix://` scheme. -/
theorem not_unix_of_tcp {s : String} (h : strHasPre "tcp://" s = true) :
    strHasPre "unix://" s = false := by
  unfold strHasPre at h ⊢
  have ht : "tcp://".data = ['t', 'c', 'p', ':', '/', '/'] := rfl
  have hu : "unix://".data = ['u', 'n', 'i', 'x', ':', '/', '/'] := rfl
  rw [ht] at h
  rw [hu]
  cases hd : s.data with
  | nil => rw [hd] at h; simp [List.isPrefixOf] at h
  | cons c cs =>
    rw [hd] at h
    simp only [List.isPrefixOf, Bool.and_eq_true, beq_iff_eq] at h
    obtain ⟨hc, _⟩ := h
    subst hc
    have hne : ('u' == 't') = false := by decide
    simp [List.isPrefixOf, hne]

/-- Claim C7: with an unset (empty) docker host, both the load-variant
`build` and `bake` attach the Unix socket from the default socket path
at the fixed in-container path and set `DOCKER_HOST` to the fixed
in-container socket address; with a `tcp://` docker host they attach no
socket and set `DOCKER_HOST` to that address literally. -/
theorem claim_C7 (version project directory token : String) (args : List String)
    (dh1 dh2 : String) (h1 : dh1 = "") (h2 : strHasPre "tcp://" dh2 = true) :
    ((V1.buildContainer version project directory token dh1 args).sockets =
        [("/var/run/docker.sock", "/var/run/docker.sock")] ∧
      getKV (V1.buildContainer version project directory token dh1 args).env "DOCKER_HOST" =
        some "unix:///var/run/docker.sock") ∧
    ((V1.bakeContainer version project directory token dh1 args).sockets =
        [("/var/run/docker.sock", "/var/run/docker.sock")] ∧
      getKV (V1.bakeContainer version project directory token dh1 args).env "DOCKER_HOST" =
        some "unix:///var/run/docker.sock") ∧
    ((V1.buildContainer version project directory token dh2 args).sockets = [] ∧
      getKV (V1.buildContainer version project directory token dh2 args).env "DOCKER_HOST" =
        some dh2) ∧
    ((V1.bakeContainer version project directory token dh2 args).sockets = [] ∧
      getKV (V1.bakeContainer version project directory token dh2 args).env "DOCKER_HOST" =
        some dh2) := by
  subst h1
  have e1 : strHasPre "unix://" V1.DefaultDockerHost = true := by decide
  have e2 : trimPre "unix://" V1.DefaultDockerHost = "/var/run/docker.sock" := by decide
  have h2u : strHasPre "unix://" dh2 = false := not_unix_of_tcp h2
  have hne : dh2 ≠ "" := by
    intro he
    rw [he] at h2
    exact absurd h2 (by decide)
  refine ⟨⟨?_, ?_⟩, ⟨?_, ?_⟩, ⟨?_, ?_⟩, ⟨?_, ?_⟩⟩ <;>
    simp [V1.buildContainer, V1.bakeContainer, e1, e2, h2, h2u, hne, emptyContainer,
      Container.From, Container.withMountedDirectory, Container.withEnvVariable,
      Container.withSecretVariable, Container.withWorkdir, Container.withUnixSocket,
      Container.withExec, setKV, getKV]

/-- Witness for C7 at concrete inputs: empty host and `tcp://1.2.3.4:2375`. -/
theorem claim_C7_witness :
    (("" : String) = "") ∧ (strHasPre "tcp://" "tcp://1.2.3.4:2375" = true) ∧
      (((V1.buildContainer "v" "p" "d" "t" "" ["x"]).sockets =
          [("/var/run/docker.sock", "/var/run/docker.sock")] ∧
        getKV (V1.buildContainer "v" "p" "d" "t" "" ["x"]).env "DOCKER_HOST" =
          some "unix:///var/run/docker.sock") ∧
      ((V1.bakeContainer "v" "p" "d" "t" "" ["x"]).sockets =
          [("/var/run/docker.sock", "/var/run/docker.sock")] ∧
        getKV (V1.bakeContainer "v" "p" "d" "t" "" ["x"]).env "DOCKER_HOST" =
          some "unix:///var/run/docker.sock") ∧
      ((V1.buildContainer "v" "p" "d" "t" "tcp://1.2.3.4:2375" ["x"]).sockets = [] ∧
        getKV (V1.buildContainer "v" "p" "d" "t" "tcp://1.2.3.4:2375" ["x"]).env "DOCKER_HOST" =
          some "tcp://1.2.3.4:2375") ∧
      ((V1.bakeContainer "v" "p" "d" "t" "tcp://1.2.3.4:2375" ["x"]).sockets = [] ∧
        getKV (V1.bakeContainer "v" "p" "d" "t" "tcp://1.2.3.4:2375" ["x"]).env "DOCKER_HOST" =
          some "tcp://1.2.3.4:2375")) :=
  ⟨rfl, by decide,
    claim_C7 "v" "p" "d" "t" ["x"] "" "tcp://1.2.3.4:2375" rfl (by decide)⟩

/-- Claim C10: with a non-empty docker host that has neither the
`unix://` nor the `tcp://` scheme, the load-variant `build` and `bake`
leave the container's sockets and `DOCKER_HOST` untouched while the
mount, project-id variable, secret token, workdir and exec are applied
as usual — the container equals the base container exactly. -/
theorem claim_C10 (version project directory token dh : String) (args : List String)
    (hne : dh ≠ "") (hu : strHasPre "unix://" dh = false)
    (ht : strHasPre "tcp://" dh = false) :
    (V1.buildContainer version project directory token dh args =
        { image := "ghcr.io/depot/cli:" ++ version, mounts := [("/mnt", directory)],
          env := [("DEPOT_PROJECT_ID", project)], secrets := [("DEPOT_TOKEN", token)],
          workdir := "/mnt", sockets := [], execArgs := some args } ∧
      getKV (V1.buildContainer version project directory token dh args).env "DOCKER_HOST" =
        none) ∧
    (V1.bakeContainer version project directory token dh args =
        { image := "ghcr.io/depot/cli:" ++ version, mounts := [("/mnt", directory)],
          env := [("DEPOT_PROJECT_ID", project)], secrets := [("DEPOT_TOKEN", token)],
          workdir := "/mnt", sockets := [], execArgs := some args } ∧
      getKV (V1.bakeContainer version project directory token dh args).env "DOCKER_HOST" =
        none) := by
  refine ⟨⟨?_, ?_⟩, ⟨?_, ?_⟩⟩ <;>
    simp [V1.buildContainer, V1.bakeContainer, hne, hu, ht, emptyContainer,
      Container.From, Container.withMountedDirectory, Container.withEnvVariable,
      Container.withSecretVariable, Container.withWorkdir, Container.withUnixSocket,
      Container.withExec, setKV, getKV]

/-- Witness for C10 at the concrete host `ssh://build-host`. -/
theorem claim_C10_witness :
    (("ssh://build-host" : String) ≠ "") ∧
      (strHasPre "unix://" "ssh://build-host" = false) ∧
      (strHasPre "tcp://" "ssh://build-host" = false) ∧
      ((V1.buildContainer "v" "p" "d" "t" "ssh://build-host" ["x"] =
          { image := "ghcr.io/depot/cli:" ++ "v", mounts := [("/mnt", "d")],
            env := [("DEPOT_PROJECT_ID", "p")], secrets := [("DEPOT_TOKEN", "t")],
            workdir := "/mnt", sockets := [], execArgs := some ["x"] } ∧
        getKV (V1.buildContainer "v" "p" "d" "t" "ssh://build-host" ["x"]).env "DOCKER_HOST" =
          none) ∧
      (V1.bakeContainer "v" "p" "d" "t" "ssh://build-host" ["x"] =
          { image := "ghcr.io/depot/cli:" ++ "v", mounts := [("/mnt", "d")],
            env := [("DEPOT_PROJECT_ID", "p")], secrets := [("DEPOT_TOKEN", "t")],
            workdir := "/mnt", sockets := [], execArgs := some ["x"] } ∧
        getKV (V1.bakeContainer "v" "p" "d" "t" "ssh://build-host" ["x"]).env "DOCKER_HOST" =
          none)) :=
  ⟨by decide, by decide, by decide,
    claim_C10 "v" "p" "d" "t" "ssh://build-host" ["x"] (by decide) (by decide) (by decide)⟩

/-- Claim C8: target lookup on a bake artifact set fails for an absent
name with an error whose message carries the complete `", "`-joined
list of valid target names, and succeeds for a present name with an
artifact of that target. -/
theorem claim_C8 (a : V2.Artifacts) (t1 t2 : String)
    (h1 : t1 ∉ a.Artifacts.map V2.BuildArtifact.Target)
    (h2 : t2 ∈ a.Artifacts.map V2.BuildArtifact.Target) :
    (a.Get t1 = Except.error ("no such artifact target " ++ t1 ++ ". valid targets: " ++
        String.intercalate ", " (a.Artifacts.map V2.BuildArtifact.Target))) ∧
      ∃ art, a.Get t2 = Except.ok art ∧ art.Target = t2 ∧ art ∈ a.Artifacts := by
  constructor
  · have hf : a.Artifacts.find? (fun artifact => artifact.Target == t1) = none := by
      rw [List.find?_eq_none]
      intro x hx
      simp only [beq_iff_eq]
      intro he
      exact h1 (List.mem_map.mpr ⟨x, hx, he⟩)
    simp only [V2.Artifacts.Get, hf]
  · obtain ⟨art0, hmem, hTarget⟩ := List.mem_map.mp h2
    have hsome : (a.Artifacts.find? (fun artifact => artifact.Target == t2)).isSome := by
      rw [List.find?_isSome]
      exact ⟨art0, hmem, by simp [hTarget]⟩
    obtain ⟨art, hart⟩ := Option.isSome_iff_exists.mp hsome
    refine ⟨art, ?_, ?_, ?_⟩
    · simp only [V2.Artifacts.Get, hart]
    · have := List.find?_some hart
      simpa using this
    · exact List.mem_of_find?_eq_some hart

/-- Witness for C8 at the spec's example: targets `web` and `api`,
lookup of `db` (absent) and `web` (present). -/
theorem claim_C8_witness :
    ("db" ∉ (V2.Artifacts.Artifacts
        ⟨[⟨"tok", "proj", "web", none, "img1", 1⟩,
          ⟨"tok", "proj", "api", none, "img2", 2⟩]⟩).map V2.BuildArtifact.Target) ∧
      ("web" ∈ (V2.Artifacts.Artifacts
        ⟨[⟨"tok", "proj", "web", none, "img1", 1⟩,
          ⟨"tok", "proj", "api", none, "img2", 2⟩]⟩).map V2.BuildArtifact.Target) ∧
      ((V2.Artifacts.Get
          ⟨[⟨"tok", "proj", "web", none, "img1", 1⟩,
            ⟨"tok", "proj", "api", none, "img2", 2⟩]⟩ "db" =
        Except.error ("no such artifact target " ++ "db" ++ ". valid targets: " ++
          String.intercalate ", " ((V2.Artifacts.Artifacts
            ⟨[⟨"tok", "proj", "web", none, "img1", 1⟩,
              ⟨"tok", "proj", "api", none, "img2", 2⟩]⟩).map V2.BuildArtifact.Target))) ∧
        ∃ art, V2.Artifacts.Get
            ⟨[⟨"tok", "proj", "web", none, "img1", 1⟩,
              ⟨"tok", "proj", "api", none, "img2", 2⟩]⟩ "web" = Except.ok art ∧
          art.Target = "web" ∧
          art ∈ V2.Artifacts.Artifacts
            ⟨[⟨"tok", "proj", "web", none, "img1", 1⟩,
              ⟨"tok", "proj", "api", none, "img2", 2⟩]⟩) :=
  ⟨by decide, by decide,
    claim_C8 ⟨[⟨"tok", "proj", "web", none, "img1", 1⟩,
      ⟨"tok", "proj", "api", none, "img2", 2⟩]⟩ "db" "web" (by decide) (by decide)⟩

/-- Claim C9: the main module's SBOM retrieval fails with the
NotFound-style errors for an absent directory and for a directory with
no entries, and returns the first file unchanged otherwise — but the
SPDX variant's `SBOMs`, at an artifact whose SBOM directory exists with
zero entries, panics (indexes `sboms[0]` out of range, modelled `none`)
instead of returning the error its own documentation promises. -/
theorem claim_C9 :
    (∀ t p i sz, Main.BuildArtifact.SBOM ⟨t, p, none, i, sz⟩ =
        Except.error "sbom not generated; use --sbom") ∧
      (∀ t p i sz, Main.BuildArtifact.SBOM ⟨t, p, some ⟨[]⟩, i, sz⟩ =
        Except.error "no sboms found") ∧
      (∀ t p i sz q qs, Main.BuildArtifact.SBOM ⟨t, p, some ⟨q :: qs⟩, i, sz⟩ =
        Except.ok (Main.Directory.File ⟨q :: qs⟩ q)) ∧
      (∀ (α : Type) (spdxRead : String → Option α) t p md c,
        V3.BuildArtifact.SBOMs spdxRead ⟨t, p, md, some ⟨[], c⟩⟩ = none) ∧
      (∀ (α : Type) (spdxRead : String → Option α) t p md,
        V3.BuildArtifact.SBOMs spdxRead ⟨t, p, md, none⟩ =
          some (Except.error "sbom not generated; use --sbom")) :=
  ⟨fun _ _ _ _ => rfl, fun _ _ _ _ => rfl, fun _ _ _ _ _ _ => rfl,
    fun _ _ _ _ _ _ => rfl, fun _ _ _ _ _ => rfl⟩

theorem unmarshalLoop_eq {α : Type} (ddb : α → Option V2.DepotBuild)
    (dmd : α → Option Depot.Metadata) (obj : List (String × α)) :
    ∀ (db : V2.DepotBuild) (ts : List (String × Depot.Metadata)),
      (∀ kv ∈ obj, kv.1 = "depot.build" → (ddb kv.2).isSome) →
      (∀ kv ∈ obj, kv.1 ≠ "depot.build" → (dmd kv.2).isSome) →
      unmarshalLoop ddb dmd obj db ts =
        some (depotBuildResult ddb obj db, ts ++ processedTargets dmd obj) := by
  induction obj with
  | nil =>
    intro db ts _ _
    simp [unmarshalLoop, depotBuildResult, processedTargets]
  | cons kv rest ih =>
    intro db ts h1 h2
    obtain ⟨k, v⟩ := kv
    by_cases hk : k = "depot.build"
    · have hs : (ddb v).isSome := h1 (k, v) (List.mem_cons_self _ _) hk
      obtain ⟨d, hd⟩ := Option.isSome_iff_exists.mp hs
      simp only [unmarshalLoop, if_pos hk, hd]
      rw [ih d ts (fun x hx hxk => h1 x (List.mem_cons_of_mem _ hx) hxk)
        (fun x hx hxk => h2 x (List.mem_cons_of_mem _ hx) hxk)]
      simp [depotBuildResult, processedTargets, hk, hd]
    · have hs : (dmd v).isSome := h2 (k, v) (List.mem_cons_self _ _) hk
      obtain ⟨md, hmd⟩ := Option.isSome_iff_exists.mp hs
      simp only [unmarshalLoop, if_neg hk, hmd]
      rw [ih db (ts ++ [(k, md)]) (fun x hx hxk => h1 x (List.mem_cons_of_mem _ hx) hxk)
        (fun x hx hxk => h2 x (List.mem_cons_of_mem _ hx) hxk)]
      simp [depotBuildResult, processedTargets, hk, hmd]

theorem processedTargets_keys_sublist {α : Type} (dmd : α → Option Depot.Metadata)
    (obj : List (String × α)) :
    ((processedTargets dmd obj).map Prod.fst).Sublist (obj.map Prod.fst) := by
  induction obj with
  | nil => simp [processedTargets]
  | cons kv rest ih =>
    obtain ⟨k, v⟩ := kv
    by_cases hk : k = "depot.build"
    · simp only [processedTargets, List.filterMap_cons, hk, if_pos rfl, List.map_cons]
      exact (ih : _).cons _
    · cases hdm : dmd v with
      | none =>
        simp only [processedTargets, List.filterMap_cons, if_neg hk, hdm, Option.map_none',
          List.map_cons]
        exact (ih : _).cons _
      | some md =>
        simp only [processedTargets, List.filterMap_cons, if_neg hk, hdm, Option.map_some',
          List.map_cons]
        exact (ih : _).cons₂ _

theorem lookupTarget_cons (k0 : String) (m0 : Depot.Metadata)
    (rest : List (String × Depot.Metadata)) (k : String) :
    lookupTarget ((k0, m0) :: rest) k =
      if k0 = k then some m0 else lookupTarget rest k := by
  unfold lookupTarget
  by_cases he : k0 = k
  · rw [List.find?_cons_of_pos _ (by simp [he]), if_pos he]
    simp
  · rw [List.find?_cons_of_neg _ (by simp [he]), if_neg he]

theorem lookupTarget_eq_some_iff :
    ∀ {ts : List (String × Depot.Metadata)}, (ts.map Prod.fst).Nodup →
      ∀ {k : String} {md : Depot.Metadata},
        (lookupTarget ts k = some md ↔ (k, md) ∈ ts) := by
  intro ts
  induction ts with
  | nil => intro _ k md; simp [lookupTarget]
  | cons kv rest ih =>
    intro hnd k md
    obtain ⟨k0, m0⟩ := kv
    simp only [List.map_cons, List.nodup_cons] at hnd
    rw [lookupTarget_cons]
    by_cases he : k0 = k
    · subst he
      rw [if_pos rfl]
      constructor
      · intro h
        injection h with h
        subst h
        exact List.mem_cons_self _ _
      · intro h
        rcases List.mem_cons.mp h with h | h
        · have : md = m0 := (congrArg Prod.snd h)
          subst this
          rfl
        · exact absurd (List.mem_map.mpr ⟨(k0, md), h, rfl⟩) hnd.1
    · rw [if_neg he]
      rw [List.mem_cons]
      constructor
      · intro h
        exact Or.inr ((ih hnd.2).mp h)
      · rintro (h | h)
        · exact absurd ((congrArg Prod.fst h).symm) he
        · exact (ih hnd.2).mpr h

theorem lookupTarget_eq_none_iff :
    ∀ {ts : List (String × Depot.Metadata)} {k : String},
      (lookupTarget ts k = none ↔ k ∉ ts.map Prod.fst) := by
  intro ts
  induction ts with
  | nil => intro k; simp [lookupTarget]
  | cons kv rest ih =>
    intro k
    obtain ⟨k0, m0⟩ := kv
    rw [lookupTarget_cons]
    by_cases he : k0 = k
    · subst he
      simp
    · have he' : ¬(k = k0) := fun h => he h.symm
      simp [if_neg he, ih, List.mem_cons, he']

theorem lookupTarget_perm {ts ts' : List (String × Depot.Metadata)} (hperm : ts.Perm ts')
    (hnd : (ts.map Prod.fst).Nodup) (k : String) :
    lookupTarget ts k = lookupTarget ts' k := by
  have hnd' : (ts'.map Prod.fst).Nodup := ((hperm.map Prod.fst).nodup_iff).mp hnd
  cases hc : lookupTarget ts k with
  | none =>
    have hk : k ∉ ts.map Prod.fst := lookupTarget_eq_none_iff.mp hc
    have hk' : k ∉ ts'.map Prod.fst := fun hm => hk (((hperm.map Prod.fst).mem_iff).mpr hm)
    exact (lookupTarget_eq_none_iff.mpr hk').symm
  | some md =>
    have hm : (k, md) ∈ ts := (lookupTarget_eq_some_iff hnd).mp hc
    have hm' : (k, md) ∈ ts' := hperm.mem_iff.mp hm
    exact ((lookupTarget_eq_some_iff hnd').mpr hm').symm

theorem depotBuildResult_cons {α : Type} (ddb : α → Option V2.DepotBuild)
    (k : String) (v : α) (rest : List (String × α)) (db : V2.DepotBuild) :
    depotBuildResult ddb ((k, v) :: rest) db =
      depotBuildResult ddb rest (if k = "depot.build" then (ddb v).getD db else db) := rfl

theorem depotBuildResult_not_mem {α : Type} (ddb : α → Option V2.DepotBuild) :
    ∀ {obj : List (String × α)}, "depot.build" ∉ obj.map Prod.fst →
      ∀ db, depotBuildResult ddb obj db = db := by
  intro obj
  induction obj with
  | nil => intro _ db; rfl
  | cons kv rest ih =>
    intro h db
    obtain ⟨k, v⟩ := kv
    simp only [List.map_cons, List.mem_cons] at h
    push_neg at h
    rw [depotBuildResult_cons, if_neg (fun he => h.1 he.symm)]
    exact ih h.2 db

theorem depotBuildResult_of_mem {α : Type} (ddb : α → Option V2.DepotBuild) :
    ∀ {obj : List (String × α)}, (obj.map Prod.fst).Nodup →
      ∀ {v : α}, ("depot.build", v) ∈ obj →
        ∀ db, depotBuildResult ddb obj db = (ddb v).getD db := by
  intro obj
  induction obj with
  | nil => intro _ v hv; cases hv
  | cons kv rest ih =>
    intro hnd v hv db
    obtain ⟨k, v0⟩ := kv
    simp only [List.map_cons, List.nodup_cons] at hnd
    rcases List.mem_cons.mp hv with h | h
    · have hk : k = "depot.build" := (congrArg Prod.fst h).symm
      have hv0 : v0 = v := (congrArg Prod.snd h).symm
      subst hk
      subst hv0
      rw [depotBuildResult_cons, if_pos rfl]
      exact depotBuildResult_not_mem ddb hnd.1 _
    · have hk : k ≠ "depot.build" := by
        intro he
        subst he
        exact hnd.1 (List.mem_map.mpr ⟨("depot.build", v), h, rfl⟩)
      rw [depotBuildResult_cons, if_neg hk]
      exact ih hnd.2 h db

theorem depotBuildResult_perm {α : Type} (ddb : α → Option V2.DepotBuild)
    {obj obj' : List (String × α)} (hperm : obj.Perm obj')
    (hnd : (obj.map Prod.fst).Nodup) (db : V2.DepotBuild) :
    depotBuildResult ddb obj db = depotBuildResult ddb obj' db := by
  have hnd' : (obj'.map Prod.fst).Nodup := ((hperm.map Prod.fst).nodup_iff).mp hnd
  by_cases hres : ∃ v, ("depot.build", v) ∈ obj
  · obtain ⟨v, hv⟩ := hres
    rw [depotBuildResult_of_mem ddb hnd hv db,
      depotBuildResult_of_mem ddb hnd' (hperm.mem_iff.mp hv) db]
  · have h1 : "depot.build" ∉ obj.map Prod.fst := by
      intro hm
      obtain ⟨⟨k, v⟩, hkv, he⟩ := List.mem_map.mp hm
      have he' : k = "depot.build" := he
      subst he'
      exact hres ⟨v, hkv⟩
    have h2 : "depot.build" ∉ obj'.map Prod.fst :=
      fun hm => h1 (((hperm.map Prod.fst).mem_iff).mpr hm)
    rw [depotBuildResult_not_mem ddb h1 db, depotBuildResult_not_mem ddb h2 db]

theorem mem_processedTargets {α : Type} (dmd : α → Option Depot.Metadata)
    {obj : List (String × α)} {k : String} {v : α} {md : Depot.Metadata}
    (hmem : (k, v) ∈ obj) (hk : k ≠ "depot.build") (hdm : dmd v = some md) :
    (k, md) ∈ processedTargets dmd obj := by
  unfold processedTargets
  exact List.mem_filterMap.mpr ⟨(k, v), hmem, by simp [hk, hdm]⟩

theorem processedTargets_keys_iff {α : Type} (dmd : α → Option Depot.Metadata)
    {obj : List (String × α)}
    (h2 : ∀ kv ∈ obj, kv.1 ≠ "depot.build" → (dmd kv.2).isSome) (k : String) :
    k ∈ (processedTargets dmd obj).map Prod.fst ↔
      (k ≠ "depot.build" ∧ k ∈ obj.map Prod.fst) := by
  constructor
  · intro hmem
    obtain ⟨⟨k1, md⟩, hmem1, hfst⟩ := List.mem_map.mp hmem
    have hk1 : k1 = k := hfst
    subst hk1
    obtain ⟨⟨k2, v⟩, hkv, he⟩ := List.mem_filterMap.mp hmem1
    by_cases hk2 : k2 = "depot.build"
    · simp [hk2] at he
    · rw [if_neg hk2] at he
      obtain ⟨md2, hmd2, heq⟩ := Option.map_eq_some'.mp he
      have hk12 : k2 = k1 := congrArg Prod.fst heq
      subst hk12
      exact ⟨hk2, List.mem_map.mpr ⟨(k2, v), hkv, rfl⟩⟩
  · rintro ⟨hne, hmem⟩
    obtain ⟨⟨k1, v⟩, hkv, hfst⟩ := List.mem_map.mp hmem
    have hk1 : k1 = k := hfst
    subst hk1
    have hs : (dmd v).isSome := h2 (k1, v) hkv hne
    obtain ⟨md, hmd⟩ := Option.isSome_iff_exists.mp hs
    exact List.mem_map.mpr ⟨(k1, md), mem_processedTargets dmd hkv hne hmd, rfl⟩

/-- Claim C2: decoding a well-formed bake-metadata object (distinct
keys, every value decodable) succeeds and partitions the keys — the
reserved key `depot.build` populates the build identifiers and every
other key becomes exactly one entry of the target mapping, decoded as a
per-target metadata value; and for any permutation of the object the
resulting mapping (as a lookup function) and build identifiers are the
same. -/
theorem claim_C2 {α : Type} (ddb : α → Option V2.DepotBuild)
    (dmd : α → Option Depot.Metadata) (obj obj' : List (String × α))
    (hperm : obj.Perm obj') (hnd : (obj.map Prod.fst).Nodup)
    (h1 : ∀ kv ∈ obj, kv.1 = "depot.build" → (ddb kv.2).isSome)
    (h2 : ∀ kv ∈ obj, kv.1 ≠ "depot.build" → (dmd kv.2).isSome) :
    ∃ m m' : V2.BakeMetadata,
      V2.BakeMetadata.unmarshalJSON ddb dmd obj = some m ∧
        V2.BakeMetadata.unmarshalJSON ddb dmd obj' = some m' ∧
        (m.Targets.map Prod.fst).Nodup ∧
        (∀ k, k ∈ m.Targets.map Prod.fst ↔ (k ≠ "depot.build" ∧ k ∈ obj.map Prod.fst)) ∧
        (∀ k v, (k, v) ∈ obj → k ≠ "depot.build" → lookupTarget m.Targets k = dmd v) ∧
        (∀ v, ("depot.build", v) ∈ obj → some m.DepotBuild = ddb v) ∧
        (∀ k, lookupTarget m.Targets k = lookupTarget m'.Targets k) ∧
        m.DepotBuild = m'.DepotBuild := by
  have h1' : ∀ kv ∈ obj', kv.1 = "depot.build" → (ddb kv.2).isSome :=
    fun kv hkv => h1 kv (hperm.mem_iff.mpr hkv)
  have h2' : ∀ kv ∈ obj', kv.1 ≠ "depot.build" → (dmd kv.2).isSome :=
    fun kv hkv => h2 kv (hperm.mem_iff.mpr hkv)
  have hnd' : (obj'.map Prod.fst).Nodup := ((hperm.map Prod.fst).nodup_iff).mp hnd
  have hrun : V2.BakeMetadata.unmarshalJSON ddb dmd obj =
      some ⟨depotBuildResult ddb obj V2.DepotBuild.zero, processedTargets dmd obj⟩ := by
    unfold V2.BakeMetadata.unmarshalJSON
    rw [unmarshalLoop_eq ddb dmd obj V2.DepotBuild.zero [] h1 h2]
    simp
  have hrun' : V2.BakeMetadata.unmarshalJSON ddb dmd obj' =
      some ⟨depotBuildResult ddb obj' V2.DepotBuild.zero, processedTargets dmd obj'⟩ := by
    unfold V2.BakeMetadata.unmarshalJSON
    rw [unmarshalLoop_eq ddb dmd obj' V2.DepotBuild.zero [] h1' h2']
    simp
  have hndp : ((processedTargets dmd obj).map Prod.fst).Nodup :=
    (processedTargets_keys_sublist dmd obj).nodup hnd
  have hptperm : (processedTargets dmd obj).Perm (processedTargets dmd obj') :=
    hperm.filterMap _
  refine ⟨⟨depotBuildResult ddb obj V2.DepotBuild.zero, processedTargets dmd obj⟩,
    ⟨depotBuildResult ddb obj' V2.DepotBuild.zero, processedTargets dmd obj'⟩,
    hrun, hrun', hndp, ?_, ?_, ?_, ?_, ?_⟩
  · intro k
    exact processedTargets_keys_iff dmd h2 k
  · intro k v hkv hk
    obtain ⟨md, hmd⟩ := Option.isSome_iff_exists.mp (h2 (k, v) hkv hk)
    rw [hmd]
    exact (lookupTarget_eq_some_iff hndp).mpr (mem_processedTargets dmd hkv hk hmd)
  · intro v hv
    obtain ⟨d, hd⟩ := Option.isSome_iff_exists.mp (h1 ("depot.build", v) hv rfl)
    show some (depotBuildResult ddb obj V2.DepotBuild.zero) = ddb v
    rw [depotBuildResult_of_mem ddb hnd hv V2.DepotBuild.zero, hd]
    rfl
  · intro k
    exact lookupTarget_perm hptperm hndp k
  · exact depotBuildResult_perm ddb hperm hnd V2.DepotBuild.zero

/-- Witness for C2 at the spec's example object
`{"depot.build": …, "web": …, "api": …}` (raw values as `Nat`) and a
permutation of it. -/
theorem claim_C2_witness :
    (([("depot.build", 0), ("web", 1), ("api", 2)] : List (String × Nat)).Perm
        [("api", 2), ("web", 1), ("depot.build", 0)]) ∧
      (([("depot.build", 0), ("web", 1), ("api", 2)] : List (String × Nat)).map
        Prod.fst).Nodup ∧
      (∀ kv ∈ ([("depot.build", 0), ("web", 1), ("api", 2)] : List (String × Nat)),
        kv.1 = "depot.build" →
          ((fun _ => some (⟨"b", "p", []⟩ : V2.DepotBuild)) kv.2).isSome) ∧
      (∀ kv ∈ ([("depot.build", 0), ("web", 1), ("api", 2)] : List (String × Nat)),
        kv.1 ≠ "depot.build" →
          ((fun (n : Nat) => some (⟨⟨"mt", "dg", (n : Int)⟩, "img", []⟩ : Depot.Metadata)) kv.2).isSome) ∧
      (∃ m m' : V2.BakeMetadata,
        V2.BakeMetadata.unmarshalJSON (fun _ => some (⟨"b", "p", []⟩ : V2.DepotBuild))
            (fun (n : Nat) => some (⟨⟨"mt", "dg", (n : Int)⟩, "img", []⟩ : Depot.Metadata))
            [("depot.build", 0), ("web", 1), ("api", 2)] = some m ∧
          V2.BakeMetadata.unmarshalJSON (fun _ => some (⟨"b", "p", []⟩ : V2.DepotBuild))
            (fun (n : Nat) => some (⟨⟨"mt", "dg", (n : Int)⟩, "img", []⟩ : Depot.Metadata))
            [("api", 2), ("web", 1), ("depot.build", 0)] = some m' ∧
          (m.Targets.map Prod.fst).Nodup ∧
          (∀ k, k ∈ m.Targets.map Prod.fst ↔ (k ≠ "depot.build" ∧
            k ∈ ([("depot.build", 0), ("web", 1), ("api", 2)] : List (String × Nat)).map
              Prod.fst)) ∧
          (∀ k v, (k, v) ∈ ([("depot.build", 0), ("web", 1), ("api", 2)] :
              List (String × Nat)) → k ≠ "depot.build" →
            lookupTarget m.Targets k =
              (fun (n : Nat) => some (⟨⟨"mt", "dg", (n : Int)⟩, "img", []⟩ : Depot.Metadata)) v) ∧
          (∀ v, ("depot.build", v) ∈ ([("depot.build", 0), ("web", 1), ("api", 2)] :
              List (String × Nat)) →
            some m.DepotBuild = (fun _ => some (⟨"b", "p", []⟩ : V2.DepotBuild)) v) ∧
          (∀ k, lookupTarget m.Targets k = lookupTarget m'.Targets k) ∧
          m.DepotBuild = m'.DepotBuild) :=
  ⟨by decide, by decide, by decide, by decide,
    claim_C2 (fun _ => some (⟨"b", "p", []⟩ : V2.DepotBuild))
      (fun (n : Nat) => some (⟨⟨"mt", "dg", (n : Int)⟩, "img", []⟩ : Depot.Metadata))
      ([("depot.build", 0), ("web", 1), ("api", 2)] : List (String × Nat))
      ([("api", 2), ("web", 1), ("depot.build", 0)] : List (String × Nat))
      (by decide) (by decide) (by decide) (by decide)⟩

end Depot
